import Mathlib

/-!
Verification development for the Lebanon external-debt dashboard
(`src/data/app.py`).

The Python program is a single linear script: load a CSV, resolve the year
and debt columns case-insensitively against fixed candidate lists, coerce
both columns to numeric, drop rows with a missing coerced value, sort by
year, filter by user-chosen inclusive year/debt ranges, and render charts.

We embed the data path shallowly:
* a raw cell is a number, a text string, or a missing value; `toNumeric`
  models `pd.to_numeric(errors="coerce")` (numeric strings parse, other
  text coerces to missing);
* `find_col` models the `find_col` function (lowercased lookup built from
  the column list, dict semantics: on duplicate lowercased names the later
  column wins, candidates probed in priority order);
* `schemaCheck` models the `YEAR_COL`/`DEBT_COL` fallback (`or "year"`,
  `or "External_Debt"`) followed by the membership check and `st.error` /
  `st.stop`; an `Except.error` value models report-and-halt (no crash);
* `loadStep` models the `try: load_data(path) except: st.error(...);
  st.stop()` block; the outcome of the `pd.read_csv` I/O itself is passed
  in as an `Except` parameter since file I/O is outside the embedding;
* `clean` models the numeric coercion + `dropna` + `sort_values` block
  (the sort is modelled by an insertion sort by year; `sort_values`
  guarantees ascending year order);
* `filterView` models the boolean-mask filter `df_filt`, and `filterStep`
  the `df_filt.empty` warning/stop branch;
* `debtSizes` models the `Debt_Size` marker-size computation of the
  scatter chart (absolute values, zeros replaced by a positive substitute);
* `rollingAggregate` is modelled from the spec, since the rolling smoother
  belongs to the sibling dashboard variants that are not under `src/`.

Numeric values are embedded as rationals.
-/

namespace DebtApp

/-- A raw cell of the loaded table: numeric, textual, or missing. -/
inductive Cell where
  | num (q : ℚ)
  | text (s : String)
  | na
deriving DecidableEq, Repr

/-- The numeric value of a decimal digit character, `none` otherwise. -/
def digitsToNat (acc : ℕ) : List Char → Option ℕ
  | [] => some acc
  | c :: cs => if c.isDigit then digitsToNat (acc * 10 + (c.toNat - 48)) cs else none

/-- Parse an integer string (optional leading minus sign, then decimal
digits); `none` on anything else. This models the numeric-text parsing of
`pd.to_numeric` for the integer strings the dataset carries. -/
def parseIntText (s : String) : Option ℤ :=
  match s.data with
  | [] => none
  | c :: cs =>
    if c = '-' then
      if cs.isEmpty then none else (digitsToNat 0 cs).map (fun n => -(n : ℤ))
    else (digitsToNat 0 (c :: cs)).map (fun n => (n : ℤ))

/-- Model of `pd.to_numeric(x, errors="coerce")` on one cell: numbers pass
through, numeric text parses, anything else becomes missing. -/
def toNumeric (c : Cell) : Option ℚ :=
  match c with
  | .num q => some q
  | .text s => (parseIntText s).map (fun n => (n : ℚ))
  | .na => none

/-- A raw row, restricted to the two resolved columns the claims are about. -/
structure RawRow where
  yearCell : Cell
  debtCell : Cell
deriving DecidableEq, Repr

/-- A cleaned row: both values present and numeric. -/
structure CleanRow where
  year : ℚ
  debt : ℚ
deriving DecidableEq, Repr

/-- Coercion of one row: `some` iff both columns coerce to numeric.
Rows mapped to `none` are the rows dropped by
`df.dropna(subset=[YEAR_COL, DEBT_COL])`. -/
def coerceRow (r : RawRow) : Option CleanRow :=
  match toNumeric r.yearCell, toNumeric r.debtCell with
  | some y, some d => some ⟨y, d⟩
  | _, _ => none

/-- The year-ordering used by `sort_values(YEAR_COL)`. -/
def yearLE (a b : CleanRow) : Prop := a.year ≤ b.year

instance : DecidableRel yearLE := fun a b => inferInstanceAs (Decidable (a.year ≤ b.year))

/-- Model of `df.dropna(subset=[YEAR_COL, DEBT_COL]).sort_values(YEAR_COL)`
applied after the numeric coercion of both columns (`src/data/app.py`,
lines 87-89). -/
def clean (rows : List RawRow) : List CleanRow :=
  (rows.filterMap coerceRow).insertionSort yearLE

/-- The user-chosen inclusive bounds: year range and debt range. -/
structure Bounds where
  ylo : ℚ
  yhi : ℚ
  dlo : ℚ
  dhi : ℚ
deriving DecidableEq, Repr

/-- The conjunction of the four slider conditions of the boolean mask
(`src/data/app.py`, lines 126-129). -/
def inBounds (b : Bounds) (r : CleanRow) : Bool :=
  decide (b.ylo ≤ r.year) && decide (r.year ≤ b.yhi) &&
  decide (b.dlo ≤ r.debt) && decide (r.debt ≤ b.dhi)

/-- Model of the boolean-mask filter `df_filt`. -/
def filterView (s : List CleanRow) (b : Bounds) : List CleanRow :=
  s.filter (inBounds b)

/-- The year-role candidate list `YEAR_COL_CANDIDATES`. -/
def YEAR_COL_CANDIDATES : List String :=
  ["year", "Year", "refPeriod", "ref period", "ref Period"]

/-- The debt-role candidate list `DEBT_COL_CANDIDATES`. -/
def DEBT_COL_CANDIDATES : List String :=
  ["External_Debt", "external_debt", "Value", "External Debt"]

/-- ASCII lowercasing of a string, modelling Python `str.lower()` on the
ASCII column names this program deals with. -/
def lowerStr (s : String) : String :=
  ⟨s.data.map Char.toLower⟩

/-- Model of the dictionary `{c.lower(): c for c in df.columns}` applied to
one key: the last column whose lowercasing equals the key (a Python dict
comprehension lets a later duplicate key overwrite an earlier one). -/
def lowerLookup (cols : List String) (key : String) : Option String :=
  (cols.filter (fun c => lowerStr c == key)).getLast?

/-- Model of `find_col`: probe the candidates in priority order, return the
original spelling of the first case-insensitive match. -/
def find_col (cols : List String) : List String → Option String
  | [] => none
  | c :: rest =>
    match lowerLookup cols (lowerStr c) with
    | some orig => some orig
    | none => find_col cols rest

/-- `YEAR_COL = find_col(df, YEAR_COL_CANDIDATES) or "year"`. -/
def resolveYear (cols : List String) : String :=
  (find_col cols YEAR_COL_CANDIDATES).getD "year"

/-- `DEBT_COL = find_col(df, DEBT_COL_CANDIDATES) or "External_Debt"`. -/
def resolveDebt (cols : List String) : String :=
  (find_col cols DEBT_COL_CANDIDATES).getD "External_Debt"

/-- The `st.error` message of the schema membership check. -/
def schemaErrorMsg (y d : String) : String :=
  "Couldn\x27t find expected columns for Year (\x27" ++ y ++
    "\x27) and Debt (\x27" ++ d ++ "\x27)."

/-- Model of the membership check
`if YEAR_COL not in df.columns or DEBT_COL not in df.columns: st.error(...);
st.stop()`: an `Except.error` value models report-and-halt (the script run
stops, the host process survives); `Except.ok` carries the resolved pair. -/
def schemaCheck (cols : List String) : Except String (String × String) :=
  let y := resolveYear cols
  let d := resolveDebt cols
  if y ∈ cols ∧ d ∈ cols then .ok (y, d)
  else .error (schemaErrorMsg y d)

/-- A loaded table: its column names and its rows (restricted to the two
role columns the claims are about). -/
structure RawTable where
  cols : List String
  rows : List RawRow
deriving DecidableEq, Repr

/-- The `st.error` message of the `except` branch around `load_data`. -/
def loadErrorMsg (path err : String) : String :=
  "Couldn\x27t load data from \x27" ++ path ++ "\x27. Error: " ++ err

/-- Model of `try: df = load_data(data_path) except Exception as e:
st.error(...); st.stop()`. The outcome of the `pd.read_csv` file I/O is
passed in: `.ok` a parsed table, `.error` the exception text raised for a
missing, unreadable or unparseable file. -/
def loadStep (path : String) (readResult : Except String RawTable) :
    Except String RawTable :=
  match readResult with
  | .ok t => .ok t
  | .error e => .error (loadErrorMsg path e)

/-- The `st.warning` message of the empty-filter branch. -/
def widenFiltersMsg : String :=
  "No data in the selected filters. Try widening your year or debt range."

/-- Outcome of the `df_filt.empty` branch: a soft warning plus stop, or
proceeding to the charts with the filtered rows. -/
inductive FilterOutcome where
  | widenWarning (msg : String)
  | proceed (rows : List CleanRow)
deriving DecidableEq, Repr

/-- Model of `if df_filt.empty: st.warning(...); st.stop()`
(`src/data/app.py`, lines 131-133). -/
def filterStep (s : List CleanRow) (b : Bounds) : FilterOutcome :=
  let f := filterView s b
  if f.isEmpty then .widenWarning widenFiltersMsg
  else .proceed f

/-- Overall outcome of one script run. `loadFailure` and `schemaFailure`
model `st.error` + `st.stop`, `emptyWarning` models `st.warning` +
`st.stop`, `charts` models reaching the chart-rendering half. In every
case the run returns a value: the host process never crashes. -/
inductive Outcome where
  | loadFailure (msg : String)
  | schemaFailure (msg : String)
  | emptyWarning (msg : String)
  | charts (rows : List CleanRow)
deriving DecidableEq, Repr

/-- One run of the script body: load, resolve and check the schema, clean,
filter, then hand the filtered rows to the charts. -/
def runPipeline (path : String) (readResult : Except String RawTable)
    (b : Bounds) : Outcome :=
  match loadStep path readResult with
  | .error m => .loadFailure m
  | .ok t =>
    match schemaCheck t.cols with
    | .error m => .schemaFailure m
    | .ok _ =>
      match filterStep (clean t.rows) b with
      | .widenWarning m => .emptyWarning m
      | .proceed rows => .charts rows

/-- The `tiny` replacement size:
`max(size_abs[size_abs > 0].min() * 0.1 if (size_abs > 0).any() else 1.0, 1.0)`.
The `getD 1` default is never reached: the filtered list is non-empty
whenever the condition of the inner `if` holds. -/
def tinySub (sizeAbs : List ℚ) : ℚ :=
  max
    (if sizeAbs.any (fun x => decide (0 < x)) then
      ((sizeAbs.filter (fun x => decide (0 < x))).min?.getD 1) / 10
    else 1)
    1

/-- Model of the `Debt_Size` computation of the scatter chart
(`src/data/app.py`, lines 186-193): absolute values of the filtered debt
column; if any of them is zero, every zero is replaced by the `tiny`
positive substitute. -/
def debtSizes (debts : List ℚ) : List ℚ :=
  let sizeAbs := debts.map (fun d => |d|)
  if sizeAbs.any (fun x => x == 0) then
    sizeAbs.map (fun x => if x = 0 then tinySub sizeAbs else x)
  else sizeAbs

/-- Arithmetic mean of a list of rationals. -/
def mean (xs : List ℚ) : ℚ := xs.sum / xs.length

/-- Median of a list of rationals: middle element of the ascending sort,
or the average of the two middle elements for an even length. -/
def median (xs : List ℚ) : ℚ :=
  let s := List.insertionSort (fun a b : ℚ => a ≤ b) xs
  let n := s.length
  if n % 2 = 1 then s.getD (n / 2) 0
  else (s.getD (n / 2 - 1) 0 + s.getD (n / 2) 0) / 2

/-- Modelled from the spec: `rollingAggregate(series, windowSize, centered,
aggregator)` is absent from `src/data/app.py` (the spec attributes the
rolling smoother to the sibling dashboard variants). Following the spec
words: at each index `i`, if a full window of `windowSize` values centered
at `i` lies within the series bounds, the aggregate over that window,
otherwise absent. -/
def rollingAggregate (series : List ℚ) (w : ℕ) (agg : List ℚ → ℚ) :
    List (Option ℚ) :=
  (List.range series.length).map fun i =>
    if 0 < w ∧ (w - 1) / 2 ≤ i ∧ i + w / 2 < series.length then
      some (agg ((series.drop (i - (w - 1) / 2)).take w))
    else none

instance {ε α : Type} [DecidableEq ε] [DecidableEq α] : DecidableEq (Except ε α) := fun a b =>
  match a, b with
  | .ok x, .ok y => if h : x = y then .isTrue (by rw [h]) else .isFalse (by simp [h])
  | .ok _, .error _ => .isFalse (by simp)
  | .error _, .ok _ => .isFalse (by simp)
  | .error x, .error y => if h : x = y then .isTrue (by rw [h]) else .isFalse (by simp [h])

instance : IsTotal CleanRow yearLE := ⟨fun a b => le_total a.year b.year⟩

instance : IsTrans CleanRow yearLE := ⟨fun _ _ _ hab hbc => le_trans hab hbc⟩

/-! ### Helper lemmas -/

theorem mem_of_getLast?_eq_some {α : Type} : ∀ {l : List α} {a : α},
    l.getLast? = some a → a ∈ l
  | [], _, h => by simp at h
  | [x], _, h => by simp_all
  | _ :: y :: l, a, h => by
    rw [List.getLast?_cons_cons] at h
    exact List.mem_cons_of_mem _ (mem_of_getLast?_eq_some h)

theorem lowerLookup_eq_none_iff {cols : List String} {key : String} :
    lowerLookup cols key = none ↔ ∀ c ∈ cols, lowerStr c ≠ key := by
  simp [lowerLookup, List.getLast?_eq_none_iff, List.filter_eq_nil_iff]

theorem lowerLookup_eq_some {cols : List String} {key r : String}
    (h : lowerLookup cols key = some r) : r ∈ cols ∧ lowerStr r = key := by
  have hm := mem_of_getLast?_eq_some h
  have hf := List.mem_filter.1 hm
  exact ⟨hf.1, by simpa using hf.2⟩

theorem find_col_eq_none_iff {cols cands : List String} :
    find_col cols cands = none ↔
      ∀ c ∈ cands, ∀ col ∈ cols, lowerStr col ≠ lowerStr c := by
  induction cands with
  | nil => simp [find_col]
  | cons c rest ih =>
    rw [find_col]
    cases hl : lowerLookup cols (lowerStr c) with
    | some orig =>
      simp only [reduceCtorEq, false_iff]
      intro hall
      obtain ⟨hmem, hkey⟩ := lowerLookup_eq_some hl
      exact hall c (List.mem_cons_self c rest) orig hmem hkey
    | none =>
      rw [ih]
      constructor
      · intro hall c' hc' col hcol
        rcases List.mem_cons.1 hc' with rfl | hc'
        · exact lowerLookup_eq_none_iff.1 hl col hcol
        · exact hall c' hc' col hcol
      · intro hall c' hc' col hcol
        exact hall c' (List.mem_cons_of_mem c hc') col hcol

theorem find_col_eq_some_spec {cols cands : List String} {r : String}
    (h : find_col cols cands = some r) :
    ∃ pre c post, cands = pre ++ c :: post ∧
      (∀ c' ∈ pre, ∀ col ∈ cols, lowerStr col ≠ lowerStr c') ∧
      r ∈ cols ∧ lowerStr r = lowerStr c := by
  induction cands with
  | nil => simp [find_col] at h
  | cons c rest ih =>
    rw [find_col] at h
    cases hl : lowerLookup cols (lowerStr c) with
    | some orig =>
      rw [hl] at h
      obtain rfl : orig = r := Option.some.inj h
      obtain ⟨hmem, hkey⟩ := lowerLookup_eq_some hl
      exact ⟨[], c, rest, rfl, by simp, hmem, hkey⟩
    | none =>
      rw [hl] at h
      obtain ⟨pre, c', post, hcands, hpre, hmem, hkey⟩ := ih h
      refine ⟨c :: pre, c', post, by simp [hcands], ?_, hmem, hkey⟩
      intro x hx col hcol
      rcases List.mem_cons.1 hx with rfl | hx
      · exact lowerLookup_eq_none_iff.1 hl col hcol
      · exact hpre x hx col hcol

theorem year_fallback_not_mem {cols : List String}
    (h : find_col cols YEAR_COL_CANDIDATES = none) : "year" ∉ cols := by
  intro hm
  exact find_col_eq_none_iff.1 h "year" (by simp [YEAR_COL_CANDIDATES]) "year" hm rfl

theorem debt_fallback_not_mem {cols : List String}
    (h : find_col cols DEBT_COL_CANDIDATES = none) : "External_Debt" ∉ cols := by
  intro hm
  exact find_col_eq_none_iff.1 h "External_Debt" (by simp [DEBT_COL_CANDIDATES])
    "External_Debt" hm rfl

/-! ### Claims -/

/-- Claim C3: column resolution is case-insensitive and priority-ordered
over the candidate list. Whenever `find_col` returns a column `r`, the
candidate list splits as `pre ++ c :: post` where no candidate of `pre`
matches any available column ignoring case, `r` is an available column in
its original spelling, and `r` matches `c` ignoring case; and on columns
`["VALUE", "refPeriod"]` with year-role candidates `["Year", "refPeriod"]`
it returns `refPeriod`. -/
theorem find_col_case_insensitive_priority :
    (∀ (cols cands : List String) (r : String), find_col cols cands = some r →
      ∃ pre c post, cands = pre ++ c :: post ∧
        (∀ c' ∈ pre, ∀ col ∈ cols, lowerStr col ≠ lowerStr c') ∧
        r ∈ cols ∧ lowerStr r = lowerStr c) ∧
    find_col ["VALUE", "refPeriod"] ["Year", "refPeriod"] = some "refPeriod" :=
  ⟨fun _ _ _ h => find_col_eq_some_spec h, by decide⟩

/-- Witness for C3: the characterization applied to the concrete example of
the claim. -/
theorem find_col_case_insensitive_priority_witness :
    ∃ pre c post, (["Year", "refPeriod"] : List String) = pre ++ c :: post ∧
      (∀ c' ∈ pre, ∀ col ∈ (["VALUE", "refPeriod"] : List String),
        lowerStr col ≠ lowerStr c') ∧
      "refPeriod" ∈ (["VALUE", "refPeriod"] : List String) ∧
      lowerStr "refPeriod" = lowerStr c :=
  find_col_case_insensitive_priority.1 ["VALUE", "refPeriod"] ["Year", "refPeriod"]
    "refPeriod" (by decide)

/-- Claim C4: when no candidate matches a required role, the run fails with
the schema error naming the roles (with the column spelling attempted for
each), never reaches the `.ok` outcome carrying a guessed column, and the
pipeline halts at the schema failure. The fallbacks `"year"` and
`"External_Debt"` cannot slip through the membership check, because each is
itself a candidate of its role: had it been a column, `find_col` would have
matched it. -/
theorem schema_resolution_failure_halts (cols : List String)
    (h : find_col cols YEAR_COL_CANDIDATES = none ∨
      find_col cols DEBT_COL_CANDIDATES = none) :
    schemaCheck cols = .error (schemaErrorMsg (resolveYear cols) (resolveDebt cols)) ∧
    (∀ y d, schemaCheck cols ≠ .ok (y, d)) ∧
    ∀ (path : String) (rows : List RawRow) (b : Bounds),
      runPipeline path (.ok ⟨cols, rows⟩) b =
        .schemaFailure (schemaErrorMsg (resolveYear cols) (resolveDebt cols)) := by
  have hcond : ¬(resolveYear cols ∈ cols ∧ resolveDebt cols ∈ cols) := by
    rcases h with h | h
    · intro hmem
      have hy := hmem.1
      simp only [resolveYear, h, Option.getD_none] at hy
      exact year_fallback_not_mem h hy
    · intro hmem
      have hd := hmem.2
      simp only [resolveDebt, h, Option.getD_none] at hd
      exact debt_fallback_not_mem h hd
  have hsc : schemaCheck cols =
      .error (schemaErrorMsg (resolveYear cols) (resolveDebt cols)) := by
    rw [schemaCheck, if_neg hcond]
  refine ⟨hsc, ?_, ?_⟩
  · intro y d heq
    rw [hsc] at heq
    exact Except.noConfusion heq
  · intro path rows b
    simp only [runPipeline, loadStep, hsc]

/-- Witness for C4: with columns `["foo", "bar"]` nothing resolves and the
guessed fallback pair is never accepted. -/
theorem schema_resolution_failure_halts_witness :
    schemaCheck ["foo", "bar"] ≠ .ok ("year", "External_Debt") :=
  (schema_resolution_failure_halts ["foo", "bar"] (by decide)).2.1 "year" "External_Debt"

/-- Claim C6: when the file read raises (missing, unreadable or unparseable
file), the run reports an error message that names the attempted path and
the pipeline halts at the load failure; the run still returns an outcome,
so the host process survives. -/
theorem load_failure_reports_path (path e : String) (b : Bounds) :
    loadStep path (.error e) = .error (loadErrorMsg path e) ∧
    (∃ pre post, loadErrorMsg path e = pre ++ path ++ post) ∧
    runPipeline path (.error e) b = .loadFailure (loadErrorMsg path e) := by
  refine ⟨rfl, ⟨"Couldn\x27t load data from \x27", "\x27. Error: " ++ e, ?_⟩, rfl⟩
  simp [loadErrorMsg, String.append_assoc]

/-- Claim C1: the cleaned output is non-decreasing in year from first to
last row, and every remaining row carries a present numeric year and a
present numeric debt value, obtained by successful coercion of some input
row (the rows failing coercion are exactly those dropped). -/
theorem clean_sorted_and_values_present (rows : List RawRow) :
    List.Chain' yearLE (clean rows) ∧
    ∀ r ∈ clean rows, ∃ raw ∈ rows, coerceRow raw = some r := by
  constructor
  · exact List.Pairwise.chain' (List.sorted_insertionSort yearLE _)
  · intro r hr
    have hm : r ∈ rows.filterMap coerceRow := by
      rw [clean] at hr
      exact (List.perm_insertionSort yearLE _).mem_iff.mp hr
    obtain ⟨raw, hraw, hco⟩ := List.mem_filterMap.1 hm
    exact ⟨raw, hraw, hco⟩

/-- Witness for C1: in the spec scenario, the cleaned row `(1990, 100)`
comes from the input row `(year="1990", debt=100)`. -/
theorem clean_sorted_and_values_present_witness :
    ∃ raw ∈ [RawRow.mk (.text "1990") (.num 100), RawRow.mk (.text "bad") (.num 200),
      RawRow.mk (.num 1991) (.num (-50))], coerceRow raw = some ⟨1990, 100⟩ :=
  (clean_sorted_and_values_present
    [⟨.text "1990", .num 100⟩, ⟨.text "bad", .num 200⟩, ⟨.num 1991, .num (-50)⟩]).2
    ⟨1990, 100⟩ (by decide)

/-- Claim C2: the filtered view is the subsequence of the cleaned rows
whose year and debt both lie in the inclusive ranges: it is a sublist
(order preserved), every row of it is in range, every in-range row of the
input is in it, and each row occurs exactly as often as in the input when
in range and never otherwise. -/
theorem filter_exactly_in_range (s : List CleanRow) (b : Bounds) :
    List.Sublist (filterView s b) s ∧
    (∀ r ∈ filterView s b, inBounds b r = true) ∧
    (∀ r ∈ s, inBounds b r = true → r ∈ filterView s b) ∧
    ∀ r : CleanRow, (filterView s b).count r = if inBounds b r then s.count r else 0 := by
  refine ⟨List.filter_sublist s, fun r hr => List.of_mem_filter hr,
    fun r hr hb => List.mem_filter.2 ⟨hr, hb⟩, fun r => ?_⟩
  by_cases hb : inBounds b r
  · rw [if_pos hb]
    exact List.count_filter hb
  · rw [if_neg hb]
    exact List.count_eq_zero.2 fun hm => hb (List.of_mem_filter hm)

/-- Witness for C2: the row `(1990, 100)` qualifies for the year range
`[1990, 1990]` and debt range `[0, 200]` and is kept. -/
theorem filter_exactly_in_range_witness :
    (⟨1990, 100⟩ : CleanRow) ∈
      filterView [⟨1990, 100⟩, ⟨1991, -50⟩] ⟨1990, 1990, 0, 200⟩ :=
  (filter_exactly_in_range [⟨1990, 100⟩, ⟨1991, -50⟩] ⟨1990, 1990, 0, 200⟩).2.2.1
    ⟨1990, 100⟩ (by decide) (by decide)

/-- Claim C9: filtering is idempotent: applying the boolean-mask filter a
second time with the same valid bounds changes nothing. -/
theorem filter_idempotent (s : List CleanRow) (b : Bounds)
    (hy : b.ylo ≤ b.yhi) (hd : b.dlo ≤ b.dhi) :
    filterView (filterView s b) b = filterView s b := by
  simp [filterView, List.filter_filter, Bool.and_self]

/-- Witness for C9: idempotence at a concrete cleaned set and valid
bounds. -/
theorem filter_idempotent_witness :
    filterView (filterView [⟨1990, 100⟩] ⟨1980, 2000, 0, 200⟩) ⟨1980, 2000, 0, 200⟩ =
      filterView [⟨1990, 100⟩] ⟨1980, 2000, 0, 200⟩ :=
  filter_idempotent [⟨1990, 100⟩] ⟨1980, 2000, 0, 200⟩ (by decide) (by decide)

/-- Claim C8: an empty filter result is a soft, user-visible condition: the
step yields the widen-your-filters warning (a value, not a crash — the
constructor is distinct from the two error outcomes), and the same caller
run again with bounds under which some row qualifies proceeds with exactly
the filtered rows. -/
theorem empty_filter_soft_warning (s : List CleanRow) (b : Bounds)
    (h : filterView s b = []) :
    filterStep s b = .widenWarning widenFiltersMsg ∧
    ∀ b' : Bounds, filterView s b' ≠ [] →
      filterStep s b' = .proceed (filterView s b') := by
  constructor
  · rw [filterStep]
    simp [h]
  · intro b' h'
    rw [filterStep]
    simp [h']

/-- Witness for C8: the singleton cleaned set `[(1990, 100)]` under bounds
excluding it warns, and under bounds including it proceeds. -/
theorem empty_filter_soft_warning_witness :
    filterStep [⟨1990, 100⟩] ⟨0, 10, 0, 10⟩ = .widenWarning widenFiltersMsg ∧
    filterStep [⟨1990, 100⟩] ⟨1980, 2000, 0, 200⟩ =
      .proceed (filterView [⟨1990, 100⟩] ⟨1980, 2000, 0, 200⟩) :=
  ⟨(empty_filter_soft_warning [⟨1990, 100⟩] ⟨0, 10, 0, 10⟩ (by decide)).1,
    (empty_filter_soft_warning [⟨1990, 100⟩] ⟨0, 10, 0, 10⟩ (by decide)).2
      ⟨1980, 2000, 0, 200⟩ (by decide)⟩

theorem one_le_tinySub (sizeAbs : List ℚ) : 1 ≤ tinySub sizeAbs :=
  le_max_right _ _

/-- Claim C10: every marker size handed to the scatter renderer is strictly
positive: at indices with a nonzero debt it is the absolute value of the
debt, and at indices with a zero debt it is the positive substitute, which
is at least `1`. -/
theorem debt_size_positive (debts : List ℚ) :
    (∀ s ∈ debtSizes debts, 0 < s) ∧
    (∀ i, i < debts.length → debts.getD i 0 ≠ 0 →
      (debtSizes debts).getD i 0 = |debts.getD i 0|) ∧
    (∀ i, i < debts.length → debts.getD i 0 = 0 →
      1 ≤ (debtSizes debts).getD i 0) := by
  by_cases hz : (debts.map fun d => |d|).any (fun x => x == 0) = true
  · have hd : debtSizes debts = (debts.map fun d => |d|).map
        (fun x => if x = 0 then tinySub (debts.map fun d => |d|) else x) := by
      simp only [debtSizes]
      rw [if_pos hz]
    refine ⟨?_, ?_, ?_⟩
    · intro s hs
      rw [hd] at hs
      obtain ⟨x, hx, rfl⟩ := List.mem_map.1 hs
      obtain ⟨d, _, rfl⟩ := List.mem_map.1 hx
      by_cases hx0 : |d| = 0
      · rw [if_pos hx0]
        exact lt_of_lt_of_le one_pos (one_le_tinySub _)
      · rw [if_neg hx0]
        exact lt_of_le_of_ne (abs_nonneg d) (Ne.symm hx0)
    · intro i hi hne
      have hi2 : i < ((debts.map fun d => |d|).map
          (fun x => if x = 0 then tinySub (debts.map fun d => |d|) else x)).length := by
        simpa using hi
      rw [hd, List.getD_eq_getElem _ _ hi2, List.getD_eq_getElem _ _ hi,
        List.getElem_map, List.getElem_map]
      rw [List.getD_eq_getElem _ _ hi] at hne
      rw [if_neg (abs_ne_zero.2 hne)]
    · intro i hi h0
      have hi2 : i < ((debts.map fun d => |d|).map
          (fun x => if x = 0 then tinySub (debts.map fun d => |d|) else x)).length := by
        simpa using hi
      rw [hd, List.getD_eq_getElem _ _ hi2, List.getElem_map, List.getElem_map]
      rw [List.getD_eq_getElem _ _ hi] at h0
      rw [h0]
      simpa using one_le_tinySub _
  · have hd : debtSizes debts = debts.map fun d => |d| := by
      simp only [debtSizes]
      rw [if_neg hz]
    refine ⟨?_, ?_, ?_⟩
    · intro s hs
      rw [hd] at hs
      have hne : s ≠ 0 := by
        intro h0
        exact hz (List.any_eq_true.2 ⟨s, hs, by simp [h0]⟩)
      obtain ⟨d, _, rfl⟩ := List.mem_map.1 hs
      exact lt_of_le_of_ne (abs_nonneg d) (Ne.symm hne)
    · intro i hi hne
      have hi2 : i < (debts.map fun d => |d|).length := by simpa using hi
      rw [hd, List.getD_eq_getElem _ _ hi2, List.getD_eq_getElem _ _ hi,
        List.getElem_map]
    · intro i hi h0
      exfalso
      rw [List.getD_eq_getElem _ _ hi] at h0
      exact hz (List.any_eq_true.2 ⟨|debts[i]|,
        List.mem_map.2 ⟨debts[i], List.getElem_mem hi, rfl⟩, by simp [h0]⟩)

/-- Witness for C10: for debts `[0, -5]` the zero entry is replaced by a
substitute that is at least `1`, and the nonzero entry keeps its absolute
value. -/
theorem debt_size_positive_witness :
    (1 : ℚ) ≤ (debtSizes [0, -5]).getD 0 0 ∧
    (debtSizes [0, -5]).getD 1 0 = |([0, -5] : List ℚ).getD 1 0| :=
  ⟨(debt_size_positive [0, -5]).2.2 0 (by decide) (by decide),
    (debt_size_positive [0, -5]).2.1 1 (by decide) (by decide)⟩

theorem rolling_window_too_large (series : List ℚ) (w : ℕ) (agg : List ℚ → ℚ)
    (h : series.length < w) :
    rollingAggregate series w agg = List.replicate series.length none := by
  rw [rollingAggregate]
  have hone : ∀ i ∈ List.range series.length,
      (if 0 < w ∧ (w - 1) / 2 ≤ i ∧ i + w / 2 < series.length then
        some (agg ((series.drop (i - (w - 1) / 2)).take w)) else none) = (none : Option ℚ) := by
    intro i _
    rw [if_neg]
    rintro ⟨hw, h1, h2⟩
    omega
  rw [List.map_congr_left hone, List.map_const', List.length_range]

/-- Claim C7 (spec-modelled): the centered rolling aggregate yields the
window aggregate where a full window fits and an absent value elsewhere:
`rollingAggregate([10,20,30,40,50], 3, centered, mean)` is
`[absent, 20, 30, 40, absent]`, the median aggregator behaves the same
way, and a window larger than the series yields all-absent. -/
theorem rolling_centered_aggregate :
    rollingAggregate [10, 20, 30, 40, 50] 3 mean =
      [none, some 20, some 30, some 40, none] ∧
    rollingAggregate [1, 2, 3] 3 median = [none, some 2, none] ∧
    ∀ (series : List ℚ) (w : ℕ) (agg : List ℚ → ℚ), series.length < w →
      rollingAggregate series w agg = List.replicate series.length none := by
  refine ⟨?_, ?_, rolling_window_too_large⟩
  · simp [rollingAggregate, mean, List.range_succ]
    try norm_num
  · simp [rollingAggregate, median, List.range_succ, List.insertionSort,
      List.orderedInsert]
    try norm_num

/-- Witness for C7: a window of `3` over a `2`-row series is all-absent. -/
theorem rolling_centered_aggregate_witness :
    rollingAggregate [10, 20] 3 mean = List.replicate 2 none :=
  rolling_centered_aggregate.2.2 [10, 20] 3 mean (by decide)

end DebtApp
